import Mathlib

/-!
Shallow embedding of the `interpreted` tree-walking interpreter
(`src/interpreted/tokenizer.py` and `src/interpreted/interpreter.py`)
together with theorems settling the frozen claims about it.

Modelling conventions, chosen once for the whole file:

* Python machine values wrapped in the source's `Value` class are modelled by
  `PyPrim`.  Python `int` is `Int` (arbitrary precision, as in Python) and
  Python `float` is modelled by `Rat`; no claim in scope depends on IEEE
  rounding, only on exact quotients such as `7 / 2 = 3.5`.
* Python `str` is `String`, `bytes` is `List Nat`.
* Runtime objects (`Object` subclasses in the source: `Value`, `List`,
  `Tuple`, `Dict`, `Deque`, builtin functions, `Module`, generators) are the
  inductive `Obj`.  Containers are modelled by value; no claim in scope
  observes aliasing of a container after it is stored.
* The evaluator is embedded for the sub-language the claims exercise:
  `Constant`, `Name`, `List`, `Tuple`, `Dict`, `BoolOp`, `BinOp`, `Call`
  expressions and `ExprStmt`, `Assign` (name target), `If`, `While`, `For`,
  `Break`, `Continue`, `Pass`, `Import` statements.  Every embedded construct
  follows its `visit_*` method in `interpreter.py` line by line.
* Errors are tagged (`Err`): `interp*` constructors are `InterpreterError`
  raises in the source, `crash*` constructors are uncaught Python exceptions
  (`AttributeError`, `ZeroDivisionError`, the plain `Exception` of the
  unpacking check, `FileNotFoundError`, `NotImplementedError`), and
  `outOfFuel` is the fuel guard of the embedding.
* `print` appends its (already evaluated) argument list to the output trace;
  the textual rendering done by `as_string` is not modelled, no claim
  concerns it.
* The filesystem consulted by `visit_Import` is a finite map from relative
  path to the (already parsed) body of the file; `open(...)` on a missing
  path is the `FileNotFoundError` crash.
-/

namespace Interpreted

/-- Primitive Python values carried by the source's `Value` wrapper class
(`Value.value : int | float | bool | str | bytes | None`). -/
inductive PyPrim where
  | none
  | bool (b : Bool)
  | int (n : Int)
  | float (q : Rat)
  | str (s : String)
  | bytes (bs : List Nat)
deriving DecidableEq, Repr

namespace PyPrim

/-- Numeric reading of a primitive, mirroring Python's numeric tower where
`True == 1` and `False == 0`; `none` for non-numbers. -/
def toNum : PyPrim → Option Rat
  | .bool b => some (if b then 1 else 0)
  | .int n => some (n : Rat)
  | .float q => some q
  | _ => Option.none

/-- True when the primitive is a Python `float`. -/
def isFloat : PyPrim → Bool
  | .float _ => true
  | _ => false

/-- Integer reading for Python `int` and `bool` operands (the types whose
arithmetic stays integral). -/
def toIntNum : PyPrim → Option Int
  | .bool b => some (if b then 1 else 0)
  | .int n => some n
  | _ => Option.none

/-- Python `bool(v)` on the primitives stored inside `Value`: this is what
`is_truthy` computes via `bool(obj.value)` (interpreter.py line 431). -/
def truthy : PyPrim → Bool
  | .none => false
  | .bool b => b
  | .int n => n != 0
  | .float q => q != 0
  | .str s => s != ""
  | .bytes bs => !bs.isEmpty

/-- Python `==` on the primitives, as computed by `Value.__eq__`
(interpreter.py lines 317-321): numbers (including `bool`) compare across
types, strings and bytes compare structurally, `None` equals `None`. -/
def eqPy (a b : PyPrim) : Bool :=
  match a.toNum, b.toNum with
  | some x, some y => x == y
  | _, _ =>
    match a, b with
    | .none, .none => true
    | .str s, .str t => s == t
    | .bytes s, .bytes t => s == t
    | _, _ => false

end PyPrim

/-- The six builtin functions bound by `Scope.__init__`
(interpreter.py lines 41-46). -/
inductive BuiltinFn where
  | print
  | len
  | int
  | float
  | dequeNew
  | enumerate
deriving DecidableEq, Repr

/-- Runtime objects: the `Object` subclasses of interpreter.py.  `pyNone` is
the host-level `None` that methods such as `Print.call` return (distinct from
`Value(None)`).  `iterator` stands for the generators produced by
`enumerate(...)` and `dict.items()`, taken eagerly. -/
inductive Obj where
  | value (v : PyPrim)
  | list (xs : List Obj)
  | tuple (xs : List Obj)
  | dict (entries : List (Obj × Obj))
  | deque (xs : List Obj)
  | builtin (b : BuiltinFn)
  | module (members : List (String × Obj))
  | iterator (xs : List Obj)
  | pyNone

namespace Obj

/-- Python class name of the object, as used by the source in error messages
such as `f"{type(item).__name__} has no len()"`. -/
def typeName : Obj → String
  | .value _ => "Value"
  | .list _ => "List"
  | .tuple _ => "Tuple"
  | .dict _ => "Dict"
  | .deque _ => "Deque"
  | .builtin _ => "Function"
  | .module _ => "Module"
  | .iterator _ => "generator"
  | .pyNone => "NoneType"

/-- The `_data` attribute shared by `List`, `Tuple` and `Deque` objects;
`none` models the `AttributeError` on every other class. -/
def getData : Obj → Option (List Obj)
  | .list xs => some xs
  | .tuple xs => some xs
  | .deque xs => some xs
  | _ => Option.none

end Obj

/-- Transcription of `is_truthy` (interpreter.py lines 429-433): a `Value` is
converted with Python `bool(...)`; every other object falls through to the
final `return True`. -/
def is_truthy : Obj → Bool
  | .value v => v.truthy
  | _ => true

/-- Tagged interpreter-level failures.  `interp*` constructors correspond to
`raise InterpreterError(...)` sites; `crash*` constructors to uncaught host
exceptions; `outOfFuel` to exhaustion of the embedding's fuel. -/
inductive Err where
  | interpNameError (name : String)
  | interpNoLen (typeName : String)
  | interpBoolOpType (op : String) (l r : String)
  | interpBinOpType (op : String) (l r : String)
  | interpNotCallable (typeName : String)
  | interpArity (expected got : Nat)
  | interpBadConversion (typeName : String)
  | crashValueErrorUnpack (expected : Nat)
  | crashAttributeData (typeName : String)
  | crashZeroDivision
  | crashNotIterable (typeName : String)
  | crashNotImplemented
  | crashAssert
  | crashFileNotFound (path : String)
  | crashValueErrorConv
  | crashZipStrict
  | crashIndexError
  | crashControlFlow
  | crashTypeError (op : String)
  | outOfFuel
deriving DecidableEq, Repr

/-- Ordered-dictionary write, the semantics of `self.data[name] = value` on a
Python `dict`: replace in place when the key exists, append otherwise. -/
def setAssoc (data : List (String × Obj)) (name : String) (v : Obj) :
    List (String × Obj) :=
  match data with
  | [] => [(name, v)]
  | (k, w) :: rest =>
    if k = name then (k, v) :: rest else (k, w) :: setAssoc rest name v

/-- Ordered-dictionary read, the semantics of `self.data.get(name, NOT_SET)`;
`none` plays the role of the `NOT_SET` sentinel. -/
def getAssoc (data : List (String × Obj)) (name : String) : Option Obj :=
  match data with
  | [] => Option.none
  | (k, w) :: rest => if k = name then some w else getAssoc rest name

/-- The bindings `Scope.__init__` installs, in the order of its six `set`
calls (interpreter.py lines 41-46). -/
def builtinBindings : List (String × Obj) :=
  [("print", .builtin .print), ("len", .builtin .len),
   ("int", .builtin .int), ("float", .builtin .float),
   ("deque", .builtin .dequeNew), ("enumerate", .builtin .enumerate)]

/-- The source's `Scope` class: a name-to-value dictionary plus an optional
parent reference (interpreter.py lines 37-52). -/
inductive Scope where
  | mk (data : List (String × Obj)) (parent : Option Scope)

namespace Scope

/-- Dictionary of the scope's own bindings. -/
def data : Scope → List (String × Obj)
  | .mk d _ => d

/-- Parent scope reference, when any. -/
def parent : Scope → Option Scope
  | .mk _ p => p

/-- Transcription of `Scope.__init__`: start with the six builtins bound in
the scope's own dictionary, keep the given parent. -/
def new (p : Option Scope) : Scope := .mk builtinBindings p

/-- Transcription of `Scope.get`: look only in the scope's own dictionary. -/
def get (sc : Scope) (name : String) : Option Obj := getAssoc sc.data name

/-- Transcription of `Scope.set`: write into the scope's own dictionary. -/
def set (sc : Scope) (name : String) (v : Obj) : Scope :=
  .mk (setAssoc sc.data name v) sc.parent

/-- The `while current_scope is not None` walk of `visit_Name`
(interpreter.py lines 822-828): innermost scope first, then parents. -/
def lookupChain : Scope → String → Option Obj
  | .mk d Option.none, name => getAssoc d name
  | .mk d (some par), name =>
    match getAssoc d name with
    | some v => some v
    | Option.none => lookupChain par name

end Scope

/-- Transcription of `visit_Name` (interpreter.py lines 819-834): walk the
scope chain, then consult the globals cursor, else `NameError`. -/
def visitName (scope globals : Scope) (name : String) : Except Err Obj :=
  match scope.lookupChain name with
  | some v => .ok v
  | Option.none =>
    match globals.get name with
    | some v => .ok v
    | Option.none => .error (.interpNameError name)

/-- The `for param, arg in zip(...)` parameter-binding loop of
`UserFunction.call` (interpreter.py lines 216-217). -/
def bindParams (sc : Scope) : List String → List Obj → Scope
  | p :: ps, a :: rest => bindParams (sc.set p a) ps rest
  | _, _ => sc

/-- The scope `UserFunction.call` executes a call in (interpreter.py lines
212-217): a fresh `Scope` whose parent is the function's defining scope, with
the parameters bound positionally on top. -/
def callScope (parentScope : Scope) (params : List String) (args : List Obj) :
    Scope :=
  bindParams (Scope.new (some parentScope)) params args

/-- Transcription of `Len.call` (interpreter.py lines 114-124): `_data`
length for `List`/`Tuple`/`Deque`, string length for a `str`-carrying
`Value`, otherwise `InterpreterError "... has no len()"` — note that `Dict`
and `bytes` fall into the error branch. -/
def lenCall (args : List Obj) : Except Err Obj :=
  match args with
  | [item] =>
    match item with
    | .list xs => .ok (.value (.int xs.length))
    | .tuple xs => .ok (.value (.int xs.length))
    | .deque xs => .ok (.value (.int xs.length))
    | .value (.str s) => .ok (.value (.int s.length))
    | _ => .error (.interpNoLen item.typeName)
  | _ => .error (.interpArity 1 args.length)

/-- Python truncation toward zero of a rational, what `int(float)` does. -/
def ratTrunc (q : Rat) : Int := q.num.tdiv (q.den : Int)

/-- Transcription of `Int.call` (interpreter.py lines 147-154).  The
`isinstance(item.value, (int, str, float))` test admits `bool` as well
(Python `bool` is an `int` subclass); a `str` that does not parse is the host
`ValueError` crash.  Numeric string parsing is approximated by decimal
integer syntax. -/
def intCall (args : List Obj) : Except Err Obj :=
  match args with
  | [item] =>
    match item with
    | .value (.int n) => .ok (.value (.int n))
    | .value (.bool b) => .ok (.value (.int (if b then 1 else 0)))
    | .value (.float q) => .ok (.value (.int (ratTrunc q)))
    | .value (.str s) =>
      match s.toInt? with
      | some n => .ok (.value (.int n))
      | Option.none => .error .crashValueErrorConv
    | _ => .error (.interpBadConversion item.typeName)
  | _ => .error (.interpArity 1 args.length)

/-- Transcription of `Float.call` (interpreter.py lines 164-171), with the
same `isinstance` remark as `intCall`; float-literal string parsing is
approximated by integer syntax. -/
def floatCall (args : List Obj) : Except Err Obj :=
  match args with
  | [item] =>
    match item with
    | .value (.int n) => .ok (.value (.float (n : Rat)))
    | .value (.bool b) => .ok (.value (.float (if b then 1 else 0)))
    | .value (.float q) => .ok (.value (.float q))
    | .value (.str s) =>
      match s.toInt? with
      | some n => .ok (.value (.float (n : Rat)))
      | Option.none => .error .crashValueErrorConv
    | _ => .error (.interpBadConversion item.typeName)
  | _ => .error (.interpArity 1 args.length)

/-- Host-Python `+` on the primitives that can sit inside `Value`
(`left.value + right.value` in `visit_BinOp`): integral pairs stay `int`,
other numeric pairs give `float`, strings and bytes concatenate, every other
combination is the host `TypeError` crash. -/
def addPy (a b : PyPrim) : Except Err PyPrim :=
  match a.toIntNum, b.toIntNum with
  | some m, some n => .ok (.int (m + n))
  | _, _ =>
    match a.toNum, b.toNum with
    | some x, some y => .ok (.float (x + y))
    | _, _ =>
      match a, b with
      | .str s, .str t => .ok (.str (s ++ t))
      | .bytes s, .bytes t => .ok (.bytes (s ++ t))
      | _, _ => .error (.crashTypeError "+")

/-- Host-Python `-` on the primitives: numbers only. -/
def subPy (a b : PyPrim) : Except Err PyPrim :=
  match a.toIntNum, b.toIntNum with
  | some m, some n => .ok (.int (m - n))
  | _, _ =>
    match a.toNum, b.toNum with
    | some x, some y => .ok (.float (x - y))
    | _, _ => .error (.crashTypeError "-")

/-- Host-Python `*` on the primitives: numbers multiply, a string or bytes
times an integral repeats it. -/
def mulPy (a b : PyPrim) : Except Err PyPrim :=
  match a.toIntNum, b.toIntNum with
  | some m, some n => .ok (.int (m * n))
  | _, _ =>
    match a.toNum, b.toNum with
    | some x, some y => .ok (.float (x * y))
    | _, _ =>
      match a, b.toIntNum with
      | .str s, some n => .ok (.str (String.join (List.replicate n.toNat s)))
      | .bytes s, some n => .ok (.bytes (List.flatten (List.replicate n.toNat s)))
      | _, _ =>
        match a.toIntNum, b with
        | some n, .str s => .ok (.str (String.join (List.replicate n.toNat s)))
        | some n, .bytes s => .ok (.bytes (List.flatten (List.replicate n.toNat s)))
        | _, _ => .error (.crashTypeError "*")

/-- Host-Python true division `/`, which is what the source runs for the
`"//"` operator (interpreter.py line 715, `Value(left.value / right.value)`).
Division by zero is the host `ZeroDivisionError` crash; the result of a
defined division is always a `float` and is the exact quotient. -/
def divPy (a b : PyPrim) : Except Err PyPrim :=
  match a.toNum, b.toNum with
  | some x, some y =>
    if y = 0 then .error .crashZeroDivision else .ok (.float (x / y))
  | _, _ => .error (.crashTypeError "//")

/-- Expression nodes of nodes.py, restricted to the constructs the claims
exercise; each constructor mirrors the fields of the corresponding
dataclass. -/
inductive Expr where
  | constant (value : PyPrim)
  | name (id : String)
  | list (elements : List Expr)
  | tuple (elements : List Expr)
  | dict (keys : List Expr) (values : List Expr)
  | boolOp (left : Expr) (op : String) (right : Expr)
  | binOp (left : Expr) (op : String) (right : Expr)
  | call (function : Expr) (args : List Expr)

/-- The `alias(name, asname)` dataclass of nodes.py. -/
structure ImportAlias where
  name : String
  asname : Option String

/-- Statement nodes of nodes.py, restricted to the constructs the claims
exercise.  `For` carries lists in its target and iterable positions, which is
how `visit_For` consumes them (`len(node.target)`, `node.iterable[0]`). -/
inductive Stmt where
  | exprStmt (value : Expr)
  | assign (targets : List Expr) (value : Expr)
  | ifStmt (condition : Expr) (body : List Stmt) (orelse : List Stmt)
  | whileStmt (condition : Expr) (body : List Stmt) (orelse : List Stmt)
  | forStmt (target : List Expr) (iterable : List Expr)
      (body : List Stmt) (orelse : List Stmt)
  | breakStmt
  | continueStmt
  | passStmt
  | importStmt (names : List ImportAlias)

/-- Evaluator state: the scope cursor (at module level, and while a module
body executes for an import, it is also the globals cursor), the trace of
`print` calls, and the read-only filesystem for `visit_Import` (relative
path to parsed file body). -/
structure St where
  scope : Scope
  output : List (List Obj)
  fs : List (String × List Stmt)

/-- Outcome of a statement: fell through, or unwinding with the `Break` or
`Continue` exception (interpreter.py lines 174-179). -/
inductive StRes where
  | normal
  | brk
  | cont
deriving DecidableEq, Repr

/-- Every visitor returns its payload (or a raised error) together with the
state reached, so that side effects performed before a failure are
retained. -/
abbrev EvalOut (α : Type) := Except Err α × St

/-- Key comparison used by a host `dict` over these objects: `Value` keys
compare by `Value.__eq__`, all other classes by object identity, which for
the freshly constructed keys of a display is never shared. -/
def objKeyEq : Obj → Obj → Bool
  | .value a, .value b => a.eqPy b
  | _, _ => false

/-- Host `dict` insertion with the key semantics of `objKeyEq`: overwriting
keeps the originally stored key object, new keys append. -/
def dictInsert (entries : List (Obj × Obj)) (k v : Obj) : List (Obj × Obj) :=
  match entries with
  | [] => [(k, v)]
  | (k₀, v₀) :: rest =>
    if objKeyEq k₀ k then (k₀, v) :: rest else (k₀, v₀) :: dictInsert rest k v

/-- The `{key: value for key, value in zip(keys, values)}` comprehension of
`Dict.__init__` (interpreter.py line 413). -/
def dictFromLists : List Obj → List Obj → List (Obj × Obj)
  | ks, vs => (List.zip ks vs).foldl (fun es kv => dictInsert es kv.1 kv.2) []

/-- Host iteration (`for element in elements`) over an object: only `List`
and `Dict` define `__iter__` (elements, key insertion order), and generators
iterate; every other class raises the host `TypeError`. -/
def iterElems : Obj → Option (List Obj)
  | .list xs => some xs
  | .dict entries => some (entries.map Prod.fst)
  | .iterator xs => some xs
  | _ => Option.none

/-- The tuples `(index, element)` yielded by `Enumerate.call`
(interpreter.py lines 134-137), taken eagerly. -/
def enumObjs (i : Nat) : List Obj → List Obj
  | [] => []
  | x :: rest => .tuple [.value (.int i), x] :: enumObjs (i + 1) rest

/-- Dispatch of `function.call(self, arguments)` for the builtin `Function`
objects.  `Print.call` accepts any arity (`arg_count` is `mock.ANY`) and
returns the host `None`; the others run their `ensure_args` check first. -/
def callBuiltin (b : BuiltinFn) (args : List Obj) (st : St) : EvalOut Obj :=
  match b with
  | .print => (.ok .pyNone, { st with output := st.output ++ [args] })
  | .len => (lenCall args, st)
  | .int => (intCall args, st)
  | .float => (floatCall args, st)
  | .dequeNew =>
    match args with
    | [] => (.ok (.deque []), st)
    | _ => (.error (.interpArity 0 args.length), st)
  | .enumerate =>
    match args with
    | [x] =>
      match iterElems x with
      | some xs => (.ok (.iterator (enumObjs 0 xs)), st)
      | Option.none => (.error (.crashNotIterable x.typeName), st)
    | _ => (.error (.interpArity 1 args.length), st)

/-- The index-bound `scope.set` loop for multiple `for` targets
(interpreter.py lines 596-598): each `Name` target takes the element's entry
at its position, non-`Name` targets are silently skipped.  Only reached with
`idx` below the data length, so the `getD` default is never used. -/
def bindEnum (idx : Nat) (ts : List Expr) (d : List Obj) (sc : Scope) : Scope :=
  match ts with
  | [] => sc
  | .name id :: rest => bindEnum (idx + 1) rest d (sc.set id (d.getD idx .pyNone))
  | _ :: rest => bindEnum (idx + 1) rest d sc

/-- The multi-target unpacking block of `visit_For` (interpreter.py lines
593-598): read the element's `_data` (host `AttributeError` when absent),
raise `"ValueError: too many values to unpack"` only when there are more
targets than entries, otherwise bind positionally. -/
def unpackTargets (target : List Expr) (value : Obj) (sc : Scope) :
    Except Err Scope :=
  match value.getData with
  | Option.none => .error (.crashAttributeData value.typeName)
  | some d =>
    if target.length > d.length then
      .error (.crashValueErrorUnpack target.length)
    else
      .ok (bindEnum 0 target d sc)

/-- One per-element binding step of `visit_For` (interpreter.py lines
591-602): unpack when there is more than one target, otherwise bind the
single `Name` target (a non-`Name` single target is silently skipped, and an
empty target list makes `node.target[0]` the host `IndexError`). -/
def bindStep (target : List Expr) (value : Obj) (sc : Scope) :
    Except Err Scope :=
  if target.length > 1 then unpackTargets target value sc
  else
    match target with
    | [.name id] => .ok (sc.set id value)
    | [_] => .ok sc
    | _ => .error .crashIndexError

/-- Filesystem lookup for `open(path)`. -/
def lookupFs (fs : List (String × List Stmt)) (path : String) :
    Option (List Stmt) :=
  match fs with
  | [] => Option.none
  | (p, body) :: rest => if p = path then some body else lookupFs rest path

mutual

/-- Expression visitor (`Interpreter.visit` dispatching to the `visit_*`
methods for expressions).  Fuel only bounds recursion depth; every construct
follows its source method: in particular `visit_BoolOp` (lines 719-734)
evaluates BOTH operands before inspecting anything, then applies the host
`and`/`or` to the raw primitive values. -/
def visitExpr : Nat → St → Expr → EvalOut Obj
  | 0, st, _ => (.error .outOfFuel, st)
  | fuel + 1, st, e =>
    match e with
    | .constant v => (.ok (.value v), st)
    | .name id => (visitName st.scope st.scope id, st)
    | .list els =>
      match visitExprs fuel st els with
      | (.error er, st₁) => (.error er, st₁)
      | (.ok xs, st₁) => (.ok (.list xs), st₁)
    | .tuple els =>
      match visitExprs fuel st els with
      | (.error er, st₁) => (.error er, st₁)
      | (.ok xs, st₁) => (.ok (.tuple xs), st₁)
    | .dict keys values =>
      match visitExprs fuel st keys with
      | (.error er, st₁) => (.error er, st₁)
      | (.ok ks, st₁) =>
        match visitExprs fuel st₁ values with
        | (.error er, st₂) => (.error er, st₂)
        | (.ok vs, st₂) =>
          if ks.length = vs.length then (.ok (.dict (dictFromLists ks vs)), st₂)
          else (.error .crashZipStrict, st₂)
    | .boolOp l op r =>
      match visitExpr fuel st l with
      | (.error er, st₁) => (.error er, st₁)
      | (.ok lo, st₁) =>
        match visitExpr fuel st₁ r with
        | (.error er, st₂) => (.error er, st₂)
        | (.ok ro, st₂) =>
          match lo, ro with
          | .value lv, .value rv =>
            if op = "and" then
              (.ok (.value (if lv.truthy then rv else lv)), st₂)
            else if op = "or" then
              (.ok (.value (if lv.truthy then lv else rv)), st₂)
            else (.error .crashAssert, st₂)
          | _, _ => (.error (.interpBoolOpType op lo.typeName ro.typeName), st₂)
    | .binOp l op r =>
      match visitExpr fuel st l with
      | (.error er, st₁) => (.error er, st₁)
      | (.ok lo, st₁) =>
        match visitExpr fuel st₁ r with
        | (.error er, st₂) => (.error er, st₂)
        | (.ok ro, st₂) =>
          match lo, ro with
          | .value lv, .value rv =>
            if op = "+" then (Except.map Obj.value (addPy lv rv), st₂)
            else if op = "-" then (Except.map Obj.value (subPy lv rv), st₂)
            else if op = "*" then (Except.map Obj.value (mulPy lv rv), st₂)
            else if op = "//" then (Except.map Obj.value (divPy lv rv), st₂)
            else (.error .crashNotImplemented, st₂)
          | _, _ => (.error (.interpBinOpType op lo.typeName ro.typeName), st₂)
    | .call f args =>
      match visitExpr fuel st f with
      | (.error er, st₁) => (.error er, st₁)
      | (.ok fo, st₁) =>
        match fo with
        | .builtin b =>
          match visitExprs fuel st₁ args with
          | (.error er, st₂) => (.error er, st₂)
          | (.ok argv, st₂) => callBuiltin b argv st₂
        | _ => (.error (.interpNotCallable fo.typeName), st₁)

/-- Left-to-right evaluation of an expression list (argument lists, display
elements). -/
def visitExprs : Nat → St → List Expr → EvalOut (List Obj)
  | 0, st, _ => (.error .outOfFuel, st)
  | _ + 1, st, [] => (.ok [], st)
  | fuel + 1, st, e :: rest =>
    match visitExpr fuel st e with
    | (.error er, st₁) => (.error er, st₁)
    | (.ok x, st₁) =>
      match visitExprs fuel st₁ rest with
      | (.error er, st₂) => (.error er, st₂)
      | (.ok xs, st₂) => (.ok (x :: xs), st₂)

end

mutual

/-- Statement visitor.  `visit_While` (interpreter.py lines 611-621) and
`visit_For` (lines 585-609) never read `node.orelse` (the source marks the
`while` case `TODO: else on while`), which is why both loop constructs
discard that field here. -/
def visitStmt : Nat → St → Stmt → EvalOut StRes
  | 0, st, _ => (.error .outOfFuel, st)
  | fuel + 1, st, s =>
    match s with
    | .passStmt => (.ok .normal, st)
    | .breakStmt => (.ok .brk, st)
    | .continueStmt => (.ok .cont, st)
    | .exprStmt e =>
      match visitExpr fuel st e with
      | (.error er, st₁) => (.error er, st₁)
      | (.ok _, st₁) => (.ok .normal, st₁)
    | .assign targets value =>
      match visitExpr fuel st value with
      | (.error er, st₁) => (.error er, st₁)
      | (.ok v, st₁) =>
        match targets with
        | [.name id] => (.ok .normal, { st₁ with scope := st₁.scope.set id v })
        | [_] => (.error .crashNotImplemented, st₁)
        | _ => (.error .crashAssert, st₁)
    | .ifStmt c body orelse =>
      match visitExpr fuel st c with
      | (.error er, st₁) => (.error er, st₁)
      | (.ok v, st₁) =>
        if is_truthy v then visitBlock fuel st₁ body
        else visitBlock fuel st₁ orelse
    | .whileStmt c body _ => whileLoop fuel st c body
    | .forStmt target iterable body _ =>
      match forIterable fuel st iterable with
      | (.error er, st₁) => (.error er, st₁)
      | (.ok elements, st₁) => forLoop fuel st₁ target elements body
    | .importStmt names => importLoop fuel st names

/-- Sequential execution of a statement list (`for stmt in node.body:
self.visit(stmt)`): a raised `Break`/`Continue` aborts the remaining
statements and propagates to the enclosing construct. -/
def visitBlock : Nat → St → List Stmt → EvalOut StRes
  | 0, st, _ => (.error .outOfFuel, st)
  | _ + 1, st, [] => (.ok .normal, st)
  | fuel + 1, st, s :: rest =>
    match visitStmt fuel st s with
    | (.error er, st₁) => (.error er, st₁)
    | (.ok .normal, st₁) => visitBlock fuel st₁ rest
    | (.ok r, st₁) => (.ok r, st₁)

/-- The `while is_truthy(...)` loop of `visit_While`: `Break` from the body
returns from the whole statement, `Continue` merely abandons the rest of the
body, and the `orelse` list is never consulted. -/
def whileLoop : Nat → St → Expr → List Stmt → EvalOut StRes
  | 0, st, _, _ => (.error .outOfFuel, st)
  | fuel + 1, st, c, body =>
    match visitExpr fuel st c with
    | (.error er, st₁) => (.error er, st₁)
    | (.ok v, st₁) =>
      if is_truthy v then
        match visitBlock fuel st₁ body with
        | (.error er, st₂) => (.error er, st₂)
        | (.ok .brk, st₂) => (.ok .normal, st₂)
        | (.ok _, st₂) => whileLoop fuel st₂ c body
      else (.ok .normal, st₁)

/-- The element retrieval of `visit_For` (interpreter.py lines 586-589): a
single iterable expression is evaluated and then host-iterated; several
iterable expressions are each evaluated into a host list of elements. -/
def forIterable : Nat → St → List Expr → EvalOut (List Obj)
  | 0, st, _ => (.error .outOfFuel, st)
  | fuel + 1, st, iterable =>
    match iterable with
    | [single] =>
      match visitExpr fuel st single with
      | (.error er, st₁) => (.error er, st₁)
      | (.ok obj, st₁) =>
        match iterElems obj with
        | some xs => (.ok xs, st₁)
        | Option.none => (.error (.crashNotIterable obj.typeName), st₁)
    | _ => visitExprs fuel st iterable

/-- The `for element in elements` loop of `visit_For`: bind the targets for
the element, then run the body with the same `Break`/`Continue` handling as
`visit_While`; `orelse` is never consulted. -/
def forLoop : Nat → St → List Expr → List Obj → List Stmt → EvalOut StRes
  | 0, st, _, _, _ => (.error .outOfFuel, st)
  | _ + 1, st, _, [], _ => (.ok .normal, st)
  | fuel + 1, st, target, element :: rest, body =>
    match bindStep target element st.scope with
    | .error er => (.error er, st)
    | .ok sc =>
      match visitBlock fuel { st with scope := sc } body with
      | (.error er, st₂) => (.error er, st₂)
      | (.ok .brk, st₂) => (.ok .normal, st₂)
      | (.ok _, st₂) => forLoop fuel st₂ target rest body

/-- The per-alias loop of `visit_Import` (interpreter.py lines 450-475): bind
under the alias when given, else under the full dotted module name; read the
file at the module name with `".py"` appended (the dots are NOT mapped to
directory separators); run its body in a fresh scope serving as both scope
and globals; freeze that scope's dictionary into a `Module` object and bind
it in the saved scope. -/
def importLoop : Nat → St → List ImportAlias → EvalOut StRes
  | 0, st, _ => (.error .outOfFuel, st)
  | _ + 1, st, [] => (.ok .normal, st)
  | fuel + 1, st, al :: rest =>
    let bindName := al.asname.getD al.name
    let path := al.name ++ ".py"
    match lookupFs st.fs path with
    | Option.none => (.error (.crashFileNotFound path), st)
    | some body =>
      match visitBlock fuel { st with scope := Scope.new Option.none } body with
      | (.error er, st₁) => (.error er, st₁)
      | (.ok .normal, st₁) =>
        importLoop fuel
          { st₁ with scope := st.scope.set bindName (.module st₁.scope.data) }
          rest
      | (.ok _, st₁) => (.error .crashControlFlow, st₁)

end

/-! Tokenizer embedding (`src/interpreted/tokenizer.py`).  The source string
is a list of characters; `peek`/`peek_next` return `Option Char` where the
source returns the empty string at end of input. -/

/-- Single-quote character (spelled numerically to keep the file free of
quote literals). -/
def sq : Char := Char.ofNat 39

/-- Double-quote character. -/
def dq : Char := Char.ofNat 34

/-- The token kinds of tokenizer.py. -/
inductive TokType where
  | op
  | name
  | string
  | number
  | indent
  | dedent
  | newline
deriving DecidableEq, Repr

/-- The `Token` named tuple: kind, lexeme, inclusive start and end offsets
(`end` is `next - 1`, here with truncated subtraction). -/
structure Tok where
  tokType : TokType
  string : List Char
  startIdx : Nat
  endIdx : Nat
deriving DecidableEq, Repr

/-- Tokenizer failures; constructors follow the `TokenizeError` raise sites
and carry the offset the source attaches. -/
inductive TokErr where
  | unknownChar (idx : Nat)
  | unknownEscape (idx : Nat)
  | unterminatedString (idx : Nat)
  | inconsistentTabs (idx : Nat)
  | badDedent (idx : Nat)
  | outOfFuel
deriving DecidableEq, Repr

/-- Mutable fields of the `Tokenizer` class. -/
structure TokState where
  source : List Char
  tokens : List Tok
  start : Nat
  next : Nat
  indents : List (List Char)
  bracketLevel : Nat
deriving DecidableEq, Repr

namespace TokState

/-- The `scanned` property: the read cursor has passed the last character. -/
def scanned (st : TokState) : Bool := st.source.length ≤ st.next

/-- The `peek` method (`Option.none` models the empty-string return at end of
input). -/
def peekT (st : TokState) : Option Char := st.source[st.next]?

/-- The `peek_next` method. -/
def peekNextT (st : TokState) : Option Char := st.source[st.next + 1]?

/-- The `advance` method. -/
def advanceT (st : TokState) : TokState := { st with next := st.next + 1 }

/-- The `skip_token` method. -/
def skipToken (st : TokState) : TokState := { st with start := st.next }

/-- The `read_char` method; its callers only run it under a not-`scanned`
guard, so `Option.none` marks the unreachable out-of-range access. -/
def readCharT (st : TokState) : Option (Char × TokState) :=
  match st.peekT with
  | some c => some (c, st.advanceT)
  | Option.none => Option.none

/-- The `add_token` method: append a token for the slice from `start` to
`next`, then move `start` up. -/
def addTokenT (st : TokState) (tt : TokType) : TokState :=
  { st with
    tokens := st.tokens ++
      [⟨tt, (st.source.drop st.start).take (st.next - st.start), st.start,
        st.next - 1⟩],
    start := st.next }

end TokState

/-- The whitespace set skipped mid-line (`"\f\v\t\r\n "`). -/
def whitespaceChars : List Char := ['\x0c', '\x0b', '\t', '\r', '\n', ' ']

/-- Single characters that may take a trailing `=`. -/
def augChars : List Char :=
  ['+', '-', '*', '/', '<', '>', '=', '!', '@', '%', '^', '&']

/-- The one-token punctuation set. -/
def punctChars : List Char :=
  ['~', Char.ofNat 40, Char.ofNat 41, Char.ofNat 91, Char.ofNat 93,
   Char.ofNat 123, Char.ofNat 125, ':', ';', ',', '.', '\\', '|']

/-- Opening brackets incrementing `bracket_level`. -/
def openBrackets : List Char := [Char.ofNat 40, Char.ofNat 91, Char.ofNat 123]

/-- Closing brackets decrementing `bracket_level`. -/
def closeBrackets : List Char := [Char.ofNat 41, Char.ofNat 93, Char.ofNat 125]

/-- The valid escape set of `scan_string` (`"\nnrtf'\"\\"`). -/
def escapeChars : List Char := ['\n', 'n', 'r', 't', 'f', sq, dq, '\\']

/-- Digit test on the `Option Char` of a peek; the empty string at end of
input is not a digit. -/
def optIsDigit : Option Char → Bool
  | some c => c.isDigit
  | Option.none => false

/-- The `scan_comment` method: discard characters up to (not including) the
next newline, then reset `start`. -/
def scanComment : Nat → TokState → TokState
  | 0, st => st.skipToken
  | fuel + 1, st =>
    match st.peekT with
    | some c => if c ≠ '\n' then scanComment fuel st.advanceT else st.skipToken
    | Option.none => st.skipToken

/-- The `scan_identifier` method (`isalnum` approximated by its ASCII part,
which is all the claims exercise). -/
def scanIdentifier : Nat → TokState → TokState
  | 0, st => st.addTokenT .name
  | fuel + 1, st =>
    match st.peekT with
    | some c =>
      if c.isAlphanum || c = '_' then scanIdentifier fuel st.advanceT
      else st.addTokenT .name
    | Option.none => st.addTokenT .name

/-- A `while self.peek().isdigit(): self.advance()` loop. -/
def skipDigits : Nat → TokState → TokState
  | 0, st => st
  | fuel + 1, st =>
    if optIsDigit st.peekT then skipDigits fuel st.advanceT else st

/-- The `scan_number` method: digits, an optional fraction part, an optional
exponent part. -/
def scanNumber (fuel : Nat) (st : TokState) : TokState :=
  let st₁ := skipDigits fuel st
  let st₂ :=
    if st₁.peekT = some '.' && optIsDigit st₁.peekNextT then
      skipDigits fuel st₁.advanceT
    else st₁
  let st₃ :=
    if (st₂.peekT = some 'e' || st₂.peekT = some 'E')
        && optIsDigit st₂.peekNextT then
      skipDigits fuel st₂.advanceT
    else st₂
  st₃.addTokenT .number

/-- The character loop of `scan_string` (tokenizer.py lines 213-251).  Note
the source behaviour transcribed here exactly: a valid escape pair is only
PEEKED at, not consumed, so the escaped character is re-read as an ordinary
character on the next iteration — in particular a quote preceded by a
backslash terminates a single-quoted string. -/
def scanStringLoop : Nat → Bool → Char → TokState → Except TokErr TokState
  | 0, _, _, _ => .error .outOfFuel
  | fuel + 1, isMultiline, quoteChar, st =>
    match st.readCharT with
    | Option.none => .error (.unterminatedString st.start)
    | some (c, st₁) =>
      if isMultiline ∧ c = quoteChar ∧ st₁.peekT = some quoteChar
          ∧ st₁.peekNextT = some quoteChar then
        .ok (st₁.advanceT.advanceT.addTokenT .string)
      else if ¬isMultiline ∧ c = quoteChar then
        .ok (st₁.addTokenT .string)
      else if c ≠ '\\' then
        scanStringLoop fuel isMultiline quoteChar st₁
      else
        match st₁.peekT with
        | Option.none => .error (.unterminatedString st₁.start)
        | some nextChar =>
          if nextChar ∈ escapeChars then
            scanStringLoop fuel isMultiline quoteChar st₁
          else
            .error (.unknownEscape st₁.next)

/-- The `scan_string` method: detect a triple-quoted opener, then run the
loop. -/
def scanString (fuel : Nat) (quoteChar : Char) (st : TokState) :
    Except TokErr TokState :=
  if st.peekT = some quoteChar ∧ st.peekNextT = some quoteChar then
    scanStringLoop fuel true quoteChar st.advanceT.advanceT
  else
    scanStringLoop fuel false quoteChar st

/-- The leading-whitespace loop of `detect_indent` (tokenizer.py lines
155-158). -/
def readIndent : Nat → TokState → List Char × TokState
  | 0, st => ([], st)
  | fuel + 1, st =>
    match st.peekT with
    | some c =>
      if c = ' ' || c = '\t' then
        let (ind, st₁) := readIndent fuel st.advanceT
        (c :: ind, st₁)
      else ([], st)
    | Option.none => ([], st)

/-- The dedent loop of `detect_indent` (tokenizer.py lines 184-186): pop one
indent level and emit one DEDENT token per step. -/
def popDedents : Nat → TokState → TokState
  | 0, st => st
  | k + 1, st =>
    popDedents k (TokState.addTokenT { st with indents := st.indents.dropLast } .dedent)

/-- The `detect_indent` method (tokenizer.py lines 154-188): compare the
line's leading whitespace with the indent stack; equal keeps the stack, a
proper extension pushes and emits INDENT, a shallower known level pops down
to it emitting DEDENTs, anything else is an error. -/
def detectIndent (fuel : Nat) (st : TokState) : Except TokErr TokState :=
  let (indent, st₁) := readIndent fuel st
  let currentIndent := st₁.indents.getLastD []
  if ¬(currentIndent.isPrefixOf indent ∨ indent.isPrefixOf currentIndent) then
    .error (.inconsistentTabs st₁.start)
  else if currentIndent = indent then
    .ok st₁.skipToken
  else if currentIndent.length < indent.length then
    let st₂ := st₁.addTokenT .indent
    .ok { st₂ with indents := st₂.indents ++ [indent] }
  else if st₁.indents.contains indent = false then
    .error (.badDedent st₁.start)
  else
    let dedentCount := st₁.indents.length - (st₁.indents.indexOf indent + 1)
    .ok (popDedents dedentCount st₁)

/-- The `scan_token` dispatcher (tokenizer.py lines 101-152), with the
branches in source order. -/
def scanToken (fuel : Nat) (st : TokState) : Except TokErr TokState :=
  match st.readCharT with
  | Option.none => .ok st
  | some (c, st₁) =>
    if c = '\n' ∧ st.bracketLevel = 0 then
      detectIndent fuel (st₁.addTokenT .newline)
    else if c ∈ whitespaceChars then
      .ok st₁.skipToken
    else if c = '*' ∧ st₁.peekT = some '*' then
      let st₂ := st₁.advanceT
      let st₃ := if st₂.peekT = some '=' then st₂.advanceT else st₂
      .ok (st₃.addTokenT .op)
    else if c = '#' then
      .ok (scanComment fuel st₁.advanceT)
    else if c ∈ augChars then
      let st₂ := if st₁.peekT = some '=' then st₁.advanceT else st₁
      .ok (st₂.addTokenT .op)
    else if c ∈ punctChars then
      let st₂ := st₁.addTokenT .op
      if c ∈ openBrackets then
        .ok { st₂ with bracketLevel := st₂.bracketLevel + 1 }
      else if c ∈ closeBrackets ∧ 0 < st₂.bracketLevel then
        .ok { st₂ with bracketLevel := st₂.bracketLevel - 1 }
      else
        .ok st₂
    else if c = sq ∨ c = dq then
      scanString fuel c st₁
    else if c.isDigit then
      .ok (scanNumber fuel st₁)
    else if c.isAlpha || c = '_' then
      .ok (scanIdentifier fuel st₁)
    else
      .error (.unknownChar st₁.start)

/-- The `scan_tokens` driver: repeat `scan_token` until `scanned`.  End of
input synthesizes nothing — in particular no trailing DEDENTs. -/
def scanTokens : Nat → TokState → Except TokErr TokState
  | 0, st => if st.scanned then .ok st else .error .outOfFuel
  | fuel + 1, st =>
    if st.scanned then .ok st
    else
      match scanToken fuel st with
      | .error e => .error e
      | .ok st₁ => scanTokens fuel st₁

/-- The `Tokenizer.__init__` state: empty token list, cursor at 0, indent
stack holding the empty indent, bracket level 0. -/
def initState (source : List Char) : TokState :=
  ⟨source, [], 0, 0, [[]], 0⟩

/-- Fuel that every loop of a full scan stays below. -/
def fuelFor (source : List Char) : Nat := 4 * source.length + 16

/-- Whole-tokenizer run: `Tokenizer(source).scan_tokens()`. -/
def tokenize (source : List Char) : Except TokErr (List Tok) :=
  (scanTokens (fuelFor source) (initState source)).map TokState.tokens

/-- Count of tokens of a given kind in a token list. -/
def countTok (tt : TokType) (ts : List Tok) : Nat :=
  (ts.filter (fun t => t.tokType = tt)).length

/-- One step of the INDENT/DEDENT nesting check: an INDENT opens a level, a
DEDENT closes the innermost open level and is illegal when none is open,
every other token is neutral. -/
def exStep : Option Nat → Tok → Option Nat
  | Option.none, _ => Option.none
  | some k, t =>
    match t.tokType with
    | .indent => some (k + 1)
    | .dedent =>
      match k with
      | 0 => Option.none
      | k₁ + 1 => some k₁
    | _ => some k

/-- Nesting excess of a token list: `some k` when every DEDENT closes a
distinct earlier INDENT inside-out and `k` INDENTs remain open, `none` when
some DEDENT has no open INDENT to close. -/
def indentExcess (ts : List Tok) : Option Nat := ts.foldl exStep (some 0)

/-- Scanner invariant tying the emitted tokens to the indent stack: the
INDENT/DEDENT sequence emitted so far is well nested with `k` levels still
open, and the indent stack holds exactly those `k` levels above its base
entry. -/
def TokInv (st : TokState) : Prop :=
  ∃ k, indentExcess st.tokens = some k ∧ st.indents.length = k + 1

/-- The state of an interpreter fresh from `Interpreter.__init__`: a single
scope (serving as both the scope and the globals cursor), no output yet, and
the given filesystem. -/
def initSt (fs : List (String × List Stmt)) : St :=
  ⟨Scope.new Option.none, [], fs⟩

/-- C1.  The source never executes a loop's `orelse`: `visit_While` and
`visit_For` do not read `node.orelse` at all (the source marks this `TODO:
else on while`), so evaluation is unchanged under any replacement of
`orelse`, and a `while False` / `for ... in []` statement whose `orelse`
assigns `x` finishes normally leaving `x` unbound — the claim (with the
spec) says the `orelse` must run exactly once when no `break` occurred. -/
theorem c1_loop_orelse_never_runs :
    (∀ (fuel : Nat) (st : St) (c : Expr) (body o o' : List Stmt),
      visitStmt fuel st (.whileStmt c body o)
        = visitStmt fuel st (.whileStmt c body o')) ∧
    (∀ (fuel : Nat) (st : St) (t i : List Expr) (body o o' : List Stmt),
      visitStmt fuel st (.forStmt t i body o)
        = visitStmt fuel st (.forStmt t i body o')) ∧
    visitStmt 50 (initSt []) (.whileStmt (.constant (.bool false)) [.passStmt]
        [.assign [.name "x"] (.constant (.int 1))])
      = (.ok .normal, initSt []) ∧
    visitStmt 50 (initSt []) (.forStmt [.name "i"] [.list []] [.passStmt]
        [.assign [.name "x"] (.constant (.int 1))])
      = (.ok .normal, initSt []) ∧
    (Scope.new Option.none).lookupChain "x" = Option.none := by
  refine ⟨fun fuel _ _ _ _ _ => ?_, fun fuel _ _ _ _ _ _ => ?_, rfl, rfl, rfl⟩
  · cases fuel <;> rfl
  · cases fuel <;> rfl

/-- C4 counterexample.  An empty `List` object is truthy in the source
(`is_truthy` returns `True` for everything that is not a `Value`), so an
`If` whose condition is the empty list display executes its body, not its
`orelse`: here `x` ends bound to `1`, while the claim requires the `orelse`
branch (binding `2`). -/
theorem c4_empty_list_truthy_cex :
    is_truthy (.list []) = true ∧
    (visitStmt 50 (initSt []) (.ifStmt (.list [])
        [.assign [.name "x"] (.constant (.int 1))]
        [.assign [.name "x"] (.constant (.int 2))])).2.scope.lookupChain "x"
      = some (.value (.int 1)) :=
  ⟨rfl, rfl⟩

/-- C4 as amended.  `Null`, `False`, `0`, `0.0`, the empty string and empty
bytes are falsy (a `Value` goes through host `bool(...)`), but every
container object — `List`, `Tuple`, `Deque`, `Dict` — is truthy even when
empty, as are all other non-`Value` objects. -/
theorem c4_truthiness_amended :
    is_truthy (.value .none) = false ∧
    is_truthy (.value (.bool false)) = false ∧
    is_truthy (.value (.int 0)) = false ∧
    is_truthy (.value (.float 0)) = false ∧
    is_truthy (.value (.str "")) = false ∧
    is_truthy (.value (.bytes [])) = false ∧
    (∀ v : PyPrim, is_truthy (.value v) = v.truthy) ∧
    (∀ xs : List Obj, is_truthy (.list xs) = true) ∧
    (∀ xs : List Obj, is_truthy (.tuple xs) = true) ∧
    (∀ xs : List Obj, is_truthy (.deque xs) = true) ∧
    (∀ es : List (Obj × Obj), is_truthy (.dict es) = true) ∧
    (∀ ms : List (String × Obj), is_truthy (.module ms) = true) := by
  exact ⟨rfl, rfl, by decide, by decide, by decide, rfl,
    fun v => rfl, fun xs => rfl, fun xs => rfl, fun xs => rfl,
    fun es => rfl, fun ms => rfl⟩

/-- C7 counterexample.  `Len.call` only handles `List`, `Tuple`, `Deque` and
`str`-carrying `Value`s: `len` of a `Dict` (here the empty dict, which the
claim says yields `0`) and `len` of a `bytes` value both raise
`InterpreterError "... has no len()"`. -/
theorem c7_len_dict_error_cex :
    lenCall [.dict []] = .error (.interpNoLen "Dict") ∧
    lenCall [.value (.bytes [])] = .error (.interpNoLen "Value") :=
  ⟨rfl, rfl⟩

/-- C7 as amended.  `len` returns the element count for lists, tuples,
deques and strings, and raises the `has no len()` interpreter error for
everything else — including dicts and bytes values. -/
theorem c7_len_amended :
    (∀ xs : List Obj, lenCall [.list xs] = .ok (.value (.int xs.length))) ∧
    (∀ xs : List Obj, lenCall [.tuple xs] = .ok (.value (.int xs.length))) ∧
    (∀ xs : List Obj, lenCall [.deque xs] = .ok (.value (.int xs.length))) ∧
    (∀ s : String, lenCall [.value (.str s)] = .ok (.value (.int s.length))) ∧
    (∀ es : List (Obj × Obj), lenCall [.dict es] = .error (.interpNoLen "Dict")) ∧
    (∀ bs : List Nat, lenCall [.value (.bytes bs)]
        = .error (.interpNoLen "Value")) :=
  ⟨fun _ => rfl, fun _ => rfl, fun _ => rfl, fun _ => rfl, fun _ => rfl,
   fun _ => rfl⟩

/-- C9.  The escape check of `scan_string` peeks at but never consumes the
escaped character, so a quote preceded by a backslash terminates a
single-quoted literal.  On the 7-character source for the literal
`'it\'s'`, the first STRING token ends at the escaped quote and the
trailing fragment makes the whole scan fail with `Unterminated string`;
on the 5-character prefix (unterminated under the claimed semantics) the
tokenizer happily produces one complete STRING token. -/
theorem c9_escaped_quote_terminates_string :
    tokenize [sq, 'i', 't', '\\', sq, 's', sq]
      = .error (.unterminatedString 6) ∧
    tokenize [sq, 'i', 't', '\\', sq]
      = .ok [⟨.string, [sq, 'i', 't', '\\', sq], 0, 4⟩] :=
  ⟨rfl, rfl⟩

/-- C5.  Evaluating `BinOp(a, "//", b)` on numeric operands runs host true
division `Value(left.value / right.value)`: for any numeric primitives with
readings `x` and `y ≠ 0`, the result is the float carrying the exact
quotient `x / y` — no flooring or truncation. -/
theorem c5_floordiv_true_division (a b : PyPrim) (x y : Rat)
    (ha : a.toNum = some x) (hb : b.toNum = some y) (hy : y ≠ 0)
    (st : St) (fuel : Nat) :
    visitExpr (fuel + 2) st (.binOp (.constant a) "//" (.constant b))
      = (.ok (.value (.float (x / y))), st) := by
  simp only [visitExpr, divPy, ha, hb, if_neg hy]
  rfl

/-- C5 witness: `7 // 2` evaluates to the float `3.5`, not `3`. -/
theorem c5_floordiv_witness :
    visitExpr 12 (initSt []) (.binOp (.constant (.int 7)) "//" (.constant (.int 2)))
      = (.ok (.value (.float ((7 : Rat) / 2))), initSt []) ∧
    ((7 : Rat) / 2 = 3.5 ∧ (7 : Rat) / 2 ≠ 3) :=
  ⟨c5_floordiv_true_division (.int 7) (.int 2) 7 2 (by norm_num [PyPrim.toNum])
      (by norm_num [PyPrim.toNum]) (by norm_num) (initSt []) 10,
   by norm_num, by norm_num⟩

/-- C2 counterexample.  `visit_BoolOp` evaluates BOTH operands before doing
anything else, so in `True or print("hi")` the right operand runs — the
output trace records the print — and the overall result is not the left
value but the `InterpreterError` raised because `print` returned the host
`None`; the claim requires no output and result `True`. -/
theorem c2_boolop_not_short_circuit_cex :
    (visitExpr 50 (initSt []) (.boolOp (.constant (.bool true)) "or"
        (.call (.name "print") [.constant (.str "hi")]))).1
      = .error (.interpBoolOpType "or" "Value" "NoneType") ∧
    (visitExpr 50 (initSt []) (.boolOp (.constant (.bool true)) "or"
        (.call (.name "print") [.constant (.str "hi")]))).2.output
      = [[.value (.str "hi")]] :=
  ⟨rfl, rfl⟩

/-- C2 as amended.  Both operands of a `BoolOp` are always evaluated (side
effects of the right operand always occur); when both produce `Value`s,
`or` still returns the first operand if truthy else the second, and `and`
returns the second if the first is truthy else the first. -/
theorem c2_boolop_evaluates_both (fuel : Nat) (st st₁ st₂ : St) (l r : Expr)
    (a b : PyPrim) (hl : visitExpr fuel st l = (.ok (.value a), st₁))
    (hr : visitExpr fuel st₁ r = (.ok (.value b), st₂)) :
    visitExpr (fuel + 1) st (.boolOp l "or" r)
      = (.ok (.value (if a.truthy then a else b)), st₂) ∧
    visitExpr (fuel + 1) st (.boolOp l "and" r)
      = (.ok (.value (if a.truthy then b else a)), st₂) := by
  constructor <;> simp [visitExpr, hl, hr]

/-- C2 witness: with both operands plain constants, `True or 0` is `True`
and `True and 0` is `0`. -/
theorem c2_boolop_witness :
    visitExpr 11 (initSt []) (.boolOp (.constant (.bool true)) "or"
        (.constant (.int 0)))
      = (.ok (.value (.bool true)), initSt []) ∧
    visitExpr 11 (initSt []) (.boolOp (.constant (.bool true)) "and"
        (.constant (.int 0)))
      = (.ok (.value (.int 0)), initSt []) := by
  have h := c2_boolop_evaluates_both 10 (initSt []) (initSt []) (initSt [])
    (.constant (.bool true)) (.constant (.int 0)) (.bool true) (.int 0) rfl rfl
  simpa [PyPrim.truthy] using h

/-- C6 counterexample.  `visit_Import` opens `f"{alias.name}.py"` with the
dots kept: importing `a.b.c` in a filesystem whose only file sits at the
claimed path `a/b/c.py` fails with the host `FileNotFoundError` for
`a.b.c.py` instead of reading and executing that file. -/
theorem c6_import_path_cex :
    visitStmt 50 (initSt [("a/b/c.py", [])])
        (.importStmt [⟨"a.b.c", Option.none⟩])
      = (.error (.crashFileNotFound "a.b.c.py"), initSt [("a/b/c.py", [])]) :=
  rfl

/-- C6 as amended.  `import` of a dotted name reads the file at the relative
path obtained by appending `".py"` to the dotted name itself (dots are NOT
mapped to directory separators); the file's body runs in a fresh scope used
as both scope and globals, and the resulting `Module` (that scope's
dictionary) is bound under the alias or, absent one, under the full dotted
name. -/
theorem c6_import_amended (fuel : Nat) (st st₁ : St) (name : String)
    (asname : Option String) (mbody : List Stmt)
    (hfs : lookupFs st.fs (name ++ ".py") = some mbody)
    (hrun : visitBlock (fuel + 1) { st with scope := Scope.new Option.none } mbody
              = (.ok .normal, st₁)) :
    visitStmt (fuel + 3) st (.importStmt [⟨name, asname⟩])
      = (.ok .normal,
         { st₁ with scope := st.scope.set (asname.getD name)
                      (.module st₁.scope.data) }) := by
  simp only [visitStmt, importLoop, hfs, hrun]

/-- C6 witness: importing `a.b.c as m` from a filesystem holding
`a.b.c.py` (whose body assigns `z = 9`) succeeds and binds `m`. -/
theorem c6_import_witness :
    visitStmt 23 (initSt [("a.b.c.py", [.assign [.name "z"] (.constant (.int 9))])])
        (.importStmt [⟨"a.b.c", some "m"⟩])
      = (.ok .normal,
         { (visitStmt 23 (initSt [("a.b.c.py",
              [.assign [.name "z"] (.constant (.int 9))])])
             (.importStmt [⟨"a.b.c", some "m"⟩])).2 with
           scope := (initSt []).scope.set "m"
             (.module (builtinBindings ++ [("z", .value (.int 9))])) }) := by
  have h := c6_import_amended 20
    (initSt [("a.b.c.py", [.assign [.name "z"] (.constant (.int 9))])])
    { scope := Scope.mk (builtinBindings ++ [("z", .value (.int 9))]) Option.none,
      output := [],
      fs := [("a.b.c.py", [.assign [.name "z"] (.constant (.int 9))])] }
    "a.b.c" (some "m") [.assign [.name "z"] (.constant (.int 9))] rfl rfl
  exact h.trans (by rfl)

/-- C8 counterexample.  With two targets and an element of data length 3,
`visit_For` raises nothing: it binds `a` and `b` to the first two entries
and silently ignores the third, while the claim requires the
`too many values to unpack` error for a mismatch in either direction.  The
error does fire in the other direction (element shorter than the target
list). -/
theorem c8_unpack_extra_values_cex :
    (visitStmt 50 (initSt []) (.forStmt [.name "a", .name "b"]
        [.list [.tuple [.constant (.int 1), .constant (.int 2),
          .constant (.int 3)]]] [.passStmt] [])).1 = .ok .normal ∧
    (visitStmt 50 (initSt []) (.forStmt [.name "a", .name "b"]
        [.list [.tuple [.constant (.int 1), .constant (.int 2),
          .constant (.int 3)]]] [.passStmt] [])).2.scope.lookupChain "a"
      = some (.value (.int 1)) ∧
    (visitStmt 50 (initSt []) (.forStmt [.name "a", .name "b"]
        [.list [.tuple [.constant (.int 1), .constant (.int 2),
          .constant (.int 3)]]] [.passStmt] [])).2.scope.lookupChain "b"
      = some (.value (.int 2)) ∧
    unpackTargets [.name "a", .name "b"] (.tuple [.value (.int 1)])
        (Scope.new Option.none)
      = .error (.crashValueErrorUnpack 2) :=
  ⟨rfl, rfl, rfl, rfl⟩

theorem getAssoc_setAssoc_self (data : List (String × Obj)) (n : String)
    (v : Obj) : getAssoc (setAssoc data n v) n = some v := by
  induction data with
  | nil => simp [setAssoc, getAssoc]
  | cons hd tl ih =>
    obtain ⟨k, w⟩ := hd
    by_cases h : k = n <;> simp [setAssoc, getAssoc, h, ih]

theorem getAssoc_setAssoc_ne (data : List (String × Obj)) {n m : String}
    (v : Obj) (h : m ≠ n) :
    getAssoc (setAssoc data m v) n = getAssoc data n := by
  induction data with
  | nil => simp [setAssoc, getAssoc, h]
  | cons hd tl ih =>
    obtain ⟨k, w⟩ := hd
    by_cases hk : k = m
    · subst hk; simp [setAssoc, getAssoc, h]
    · simp [setAssoc, getAssoc, hk, ih]

theorem Scope.get_set_self (sc : Scope) (n : String) (v : Obj) :
    (sc.set n v).get n = some v := by
  cases sc with
  | mk d p => exact getAssoc_setAssoc_self d n v

theorem Scope.get_set_ne (sc : Scope) {n m : String} (v : Obj) (h : m ≠ n) :
    (sc.set m v).get n = sc.get n := by
  cases sc with
  | mk d p => exact getAssoc_setAssoc_ne d v h

theorem bindEnum_get_notMem (names : List String) (k : Nat) (d : List Obj)
    (sc : Scope) (nm : String) (h : nm ∉ names) :
    (bindEnum k (names.map Expr.name) d sc).get nm = sc.get nm := by
  induction names generalizing k sc with
  | nil => rfl
  | cons a rest ih =>
    simp only [List.mem_cons, not_or] at h
    show (bindEnum (k + 1) (rest.map Expr.name) d
        (sc.set a (d.getD k .pyNone))).get nm = sc.get nm
    rw [ih (k + 1) _ h.2, Scope.get_set_ne _ _ (fun hh => h.1 hh.symm)]

theorem bindEnum_get_at (names : List String) (k : Nat) (d : List Obj)
    (sc : Scope) (hnodup : names.Nodup) :
    ∀ i nm, names[i]? = some nm →
      (bindEnum k (names.map Expr.name) d sc).get nm
        = some (d.getD (k + i) .pyNone) := by
  induction names generalizing k sc with
  | nil => intro i nm h; simp at h
  | cons a rest ih =>
    intro i nm h
    match i with
    | 0 =>
      simp only [List.getElem?_cons_zero, Option.some.injEq] at h
      subst h
      show (bindEnum (k + 1) (rest.map Expr.name) d
          (sc.set a (d.getD k .pyNone))).get a = some (d.getD (k + 0) .pyNone)
      rw [bindEnum_get_notMem rest (k + 1) d _ a (by
          simpa using (List.nodup_cons.mp hnodup).1),
        Scope.get_set_self, Nat.add_zero]
    | i₁ + 1 =>
      simp only [List.getElem?_cons_succ] at h
      show (bindEnum (k + 1) (rest.map Expr.name) d
          (sc.set a (d.getD k .pyNone))).get nm = some (d.getD (k + (i₁ + 1)) .pyNone)
      rw [ih (k + 1) _ (List.nodup_cons.mp hnodup).2 i₁ nm h]
      congr 2
      omega

/-- C8 as amended.  For a multi-target `for`, the `too many values to
unpack` failure fires only when the target count exceeds the element's data
length; when the element has at least as many entries as targets, no error
is raised — each (distinct) `Name` target is bound to the entry at its
position and any surplus entries are silently ignored. -/
theorem c8_unpack_amended (names : List String) (d : List Obj) (sc : Scope)
    (_hlen : 1 < names.length) (hnodup : names.Nodup) :
    (d.length < names.length →
      unpackTargets (names.map Expr.name) (.tuple d) sc
        = .error (.crashValueErrorUnpack names.length)) ∧
    (names.length ≤ d.length →
      ∃ sc₁, unpackTargets (names.map Expr.name) (.tuple d) sc = .ok sc₁ ∧
        ∀ i nm, names[i]? = some nm → sc₁.get nm = some (d.getD i .pyNone)) := by
  constructor
  · intro h
    simp [unpackTargets, Obj.getData, h]
  · intro h
    refine ⟨bindEnum 0 (names.map Expr.name) d sc, ?_, ?_⟩
    · simp [unpackTargets, Obj.getData, Nat.not_lt.mpr h]
    · intro i nm hi
      simpa using bindEnum_get_at names 0 d sc hnodup i nm hi

/-- C8 witness: two distinct targets over a three-entry tuple bind
positionally with no error. -/
theorem c8_unpack_witness :
    (1 < 2 ∧ (["a", "b"] : List String).Nodup ∧ (2 : Nat) ≤ 3) ∧
    ∃ sc₁, unpackTargets [Expr.name "a", Expr.name "b"]
        (.tuple [.value (.int 1), .value (.int 2), .value (.int 3)])
        (Scope.new Option.none) = .ok sc₁ ∧
      ∀ i nm, (["a", "b"] : List String)[i]? = some nm →
        sc₁.get nm = some (([Obj.value (.int 1), .value (.int 2),
          .value (.int 3)]).getD i .pyNone) := by
  have h := (c8_unpack_amended ["a", "b"]
    [.value (.int 1), .value (.int 2), .value (.int 3)]
    (Scope.new Option.none) (by decide) (by decide)).2 (by decide)
  exact ⟨⟨by decide, by decide, by decide⟩, by simpa using h⟩

theorem builtin_get_new (name : String) (ob : Obj) (p : Option Scope)
    (hb : (name, ob) ∈ builtinBindings) : (Scope.new p).get name = some ob := by
  simp only [builtinBindings, List.mem_cons, List.mem_singleton,
    Prod.mk.injEq, List.not_mem_nil, or_false] at hb
  rcases hb with ⟨h1, h2⟩ | ⟨h1, h2⟩ | ⟨h1, h2⟩ | ⟨h1, h2⟩ | ⟨h1, h2⟩ | ⟨h1, h2⟩ <;>
    subst h1 <;> subst h2 <;> rfl

theorem bindParams_get_notMem (params : List String) (args : List Obj)
    (sc : Scope) (name : String) (h : name ∉ params) :
    (bindParams sc params args).get name = sc.get name := by
  induction params generalizing args sc with
  | nil => cases args <;> rfl
  | cons p ps ih =>
    cases args with
    | nil => rfl
    | cons a rest =>
      simp only [List.mem_cons, not_or] at h
      show (bindParams (sc.set p a) ps rest).get name = sc.get name
      rw [ih rest _ h.2, Scope.get_set_ne _ _ (fun hh => h.1 hh.symm)]

theorem Scope.lookupChain_of_get (sc : Scope) (name : String) (v : Obj)
    (h : sc.get name = some v) : sc.lookupChain name = some v := by
  cases sc with
  | mk d p =>
    simp only [Scope.get, Scope.data] at h
    cases p with
    | none => exact h
    | some par =>
      show (match getAssoc d name with
            | some w => some w
            | Option.none => par.lookupChain name) = some v
      rw [h]

/-- C10.  Every `Scope` — hence also the fresh scope `UserFunction.call`
creates for a call — carries the six builtin bindings in its own dictionary
from construction; consequently `visit_Name` resolution from inside a called
function (whose parameters do not shadow the name) finds the original
builtin regardless of what the globals scope currently binds that name
to. -/
theorem c10_scope_builtins_shadow (name : String) (ob : Obj)
    (hb : (name, ob) ∈ builtinBindings) :
    (∀ p : Option Scope, (Scope.new p).get name = some ob) ∧
    (∀ (parentScope globals : Scope) (params : List String) (args : List Obj),
      name ∉ params →
      visitName (callScope parentScope params args) globals name = .ok ob) := by
  refine ⟨fun p => builtin_get_new name ob p hb, ?_⟩
  intro parent globals params args hparams
  have hget : (callScope parent params args).get name = some ob := by
    rw [callScope, bindParams_get_notMem _ _ _ _ hparams]
    exact builtin_get_new name ob _ hb
  unfold visitName
  rw [Scope.lookupChain_of_get _ _ _ hget]

/-- C10 witness: with `print` rebound in the globals scope, a call scope
with parameter list `["x"]` still resolves `print` to the builtin. -/
theorem c10_scope_builtins_witness :
    (Scope.new Option.none).get "print" = some (.builtin .print) ∧
    visitName (callScope (Scope.new Option.none) ["x"] [.pyNone])
        (Scope.mk [("print", .value (.int 0))] Option.none) "print"
      = .ok (.builtin .print) := by
  have h := c10_scope_builtins_shadow "print" (.builtin .print) (List.Mem.head _)
  exact ⟨h.1 Option.none, h.2 _ _ ["x"] [.pyNone] (by decide)⟩

theorem indentExcess_append (ts : List Tok) (t : Tok) :
    indentExcess (ts ++ [t]) = exStep (indentExcess ts) t := by
  simp [indentExcess, List.foldl_append]

theorem exStep_neutral (o : Option Nat) (t : Tok)
    (h1 : t.tokType ≠ .indent) (h2 : t.tokType ≠ .dedent) :
    exStep o t = o := by
  cases o with
  | none => rfl
  | some k =>
    obtain ⟨tt, s, a, b⟩ := t
    cases tt <;> simp_all [exStep]

theorem foldl_exStep_none (ts : List Tok) : ts.foldl exStep Option.none = Option.none := by
  induction ts with
  | nil => rfl
  | cons t rest ih => simpa [exStep] using ih

theorem indentExcess_counts (ts : List Tok) :
    ∀ j k, ts.foldl exStep (some j) = some k →
      countTok .dedent ts + k = countTok .indent ts + j := by
  induction ts with
  | nil =>
    intro j k h
    simp only [List.foldl_nil, Option.some.injEq] at h
    simp [countTok, h]
  | cons t rest ih =>
    intro j k h
    obtain ⟨tt, s, a, b⟩ := t
    have hcount : ∀ tt₁ : TokType,
        countTok tt₁ (⟨tt, s, a, b⟩ :: rest)
          = (if tt = tt₁ then 1 else 0) + countTok tt₁ rest := by
      intro tt₁
      by_cases htt : tt = tt₁
      · simp [countTok, htt]
        omega
      · simp [countTok, htt]
    cases tt with
    | indent =>
      have := ih (j + 1) k (by simpa [exStep] using h)
      simp [hcount]
      omega
    | dedent =>
      cases j with
      | zero =>
        rw [List.foldl_cons, show exStep (some 0) ⟨.dedent, s, a, b⟩
          = Option.none from rfl, foldl_exStep_none] at h
        exact absurd h (by simp)
      | succ j₁ =>
        have := ih j₁ k (by simpa [exStep] using h)
        simp [hcount]
        omega
    | op =>
      have := ih j k (by simpa [exStep] using h)
      simp [hcount]
      omega
    | name =>
      have := ih j k (by simpa [exStep] using h)
      simp [hcount]
      omega
    | string =>
      have := ih j k (by simpa [exStep] using h)
      simp [hcount]
      omega
    | number =>
      have := ih j k (by simpa [exStep] using h)
      simp [hcount]
      omega
    | newline =>
      have := ih j k (by simpa [exStep] using h)
      simp [hcount]
      omega

theorem TokInv_of_fields (a b : TokState) (ht : b.tokens = a.tokens)
    (hi : b.indents = a.indents) (h : TokInv a) : TokInv b := by
  obtain ⟨k, hk, hl⟩ := h
  exact ⟨k, ht ▸ hk, hi ▸ hl⟩

theorem addTokenT_tokens (st : TokState) (tt : TokType) :
    (st.addTokenT tt).tokens
      = st.tokens ++ [⟨tt, (st.source.drop st.start).take (st.next - st.start),
          st.start, st.next - 1⟩] := rfl

theorem addTokenT_indents (st : TokState) (tt : TokType) :
    (st.addTokenT tt).indents = st.indents := rfl

theorem TokInv_addTokenT (st : TokState) (tt : TokType)
    (h1 : tt ≠ .indent) (h2 : tt ≠ .dedent) (h : TokInv st) :
    TokInv (st.addTokenT tt) := by
  obtain ⟨k, hk, hl⟩ := h
  refine ⟨k, ?_, hl⟩
  rw [addTokenT_tokens, indentExcess_append, hk, exStep_neutral _ _ h1 h2]

theorem advanceT_tokens (st : TokState) : st.advanceT.tokens = st.tokens := rfl

theorem advanceT_indents (st : TokState) : st.advanceT.indents = st.indents := rfl

theorem skipToken_tokens (st : TokState) : st.skipToken.tokens = st.tokens := rfl

theorem skipToken_indents (st : TokState) : st.skipToken.indents = st.indents := rfl

theorem scanComment_fields (fuel : Nat) (st : TokState) :
    (scanComment fuel st).tokens = st.tokens ∧
      (scanComment fuel st).indents = st.indents := by
  induction fuel generalizing st with
  | zero => exact ⟨rfl, rfl⟩
  | succ n ih =>
    rw [scanComment]
    cases hp : st.peekT with
    | none => exact ⟨rfl, rfl⟩
    | some c =>
      by_cases hc : c ≠ '\n'
      · simpa [hc] using ih st.advanceT
      · simp [hc]
        exact ⟨rfl, rfl⟩

theorem skipDigits_fields (fuel : Nat) (st : TokState) :
    (skipDigits fuel st).tokens = st.tokens ∧
      (skipDigits fuel st).indents = st.indents := by
  induction fuel generalizing st with
  | zero => exact ⟨rfl, rfl⟩
  | succ n ih =>
    rw [skipDigits]
    by_cases hd : optIsDigit st.peekT
    · simpa [hd] using ih st.advanceT
    · simp [hd]

theorem scanIdentifier_inv (fuel : Nat) (st : TokState) (h : TokInv st) :
    TokInv (scanIdentifier fuel st) := by
  induction fuel generalizing st with
  | zero => exact TokInv_addTokenT st .name (by decide) (by decide) h
  | succ n ih =>
    rw [scanIdentifier]
    cases hp : st.peekT with
    | none => exact TokInv_addTokenT st .name (by decide) (by decide) h
    | some c =>
      by_cases hc : c.isAlphanum || c = '_'
      · simpa [hc] using ih st.advanceT h
      · simp [hc]
        exact TokInv_addTokenT st .name (by decide) (by decide) h

theorem scanNumber_inv (fuel : Nat) (st : TokState) (h : TokInv st) :
    TokInv (scanNumber fuel st) := by
  have key : ∀ st₃ : TokState, st₃.tokens = st.tokens → st₃.indents = st.indents →
      TokInv (st₃.addTokenT .number) := fun st₃ ht hi =>
    TokInv_addTokenT st₃ .number (by decide) (by decide)
      (TokInv_of_fields st st₃ ht hi h)
  rw [scanNumber]
  apply key
  · repeat' split
    all_goals simp [(skipDigits_fields _ _).1, advanceT_tokens]
  · repeat' split
    all_goals simp [(skipDigits_fields _ _).2, advanceT_indents]

theorem readCharT_snd (st st₁ : TokState) (c : Char)
    (h : st.readCharT = some (c, st₁)) : st₁ = st.advanceT := by
  unfold TokState.readCharT at h
  cases hp : st.peekT with
  | none => rw [hp] at h; exact absurd h (by simp)
  | some c₁ => rw [hp] at h; exact (congrArg Prod.snd (Option.some.inj h)).symm

theorem scanStringLoop_inv (fuel : Nat) (m : Bool) (q : Char)
    (st st₁ : TokState) (h : scanStringLoop fuel m q st = .ok st₁)
    (hinv : TokInv st) : TokInv st₁ := by
  induction fuel generalizing st with
  | zero => exact absurd h (by simp [scanStringLoop])
  | succ n ih =>
    rw [scanStringLoop] at h
    split at h
    · exact absurd h (by simp)
    · rename_i c st₂ hr
      have hadv : st₂ = st.advanceT := readCharT_snd st st₂ c hr
      have hinv₂ : TokInv st₂ := TokInv_of_fields st st₂
        (by rw [hadv]; rfl) (by rw [hadv]; rfl) hinv
      split_ifs at h with h1 h2 h3
      · obtain rfl := Except.ok.inj h
        exact TokInv_addTokenT _ .string (by decide) (by decide)
          (TokInv_of_fields st₂ _ rfl rfl hinv₂)
      · obtain rfl := Except.ok.inj h
        exact TokInv_addTokenT _ .string (by decide) (by decide) hinv₂
      · exact ih st₂ h hinv₂
      · split at h
        · exact absurd h (by simp)
        · split_ifs at h with h4
          exact ih st₂ h hinv₂

theorem scanString_inv (fuel : Nat) (q : Char) (st st₁ : TokState)
    (h : scanString fuel q st = .ok st₁) (hinv : TokInv st) : TokInv st₁ := by
  unfold scanString at h
  split_ifs at h
  · exact scanStringLoop_inv fuel true q _ st₁ h
      (TokInv_of_fields st _ rfl rfl hinv)
  · exact scanStringLoop_inv fuel false q st st₁ h hinv

theorem readIndent_fields (fuel : Nat) (st : TokState) :
    (readIndent fuel st).2.tokens = st.tokens ∧
      (readIndent fuel st).2.indents = st.indents := by
  induction fuel generalizing st with
  | zero => exact ⟨rfl, rfl⟩
  | succ n ih =>
    rw [readIndent]
    cases hp : st.peekT with
    | none => exact ⟨rfl, rfl⟩
    | some c =>
      by_cases hc : c = ' ' || c = '\t'
      · simpa [hc] using ih st.advanceT
      · simp [hc]

theorem popDedents_inv : ∀ (p : Nat) (st : TokState) (k : Nat),
    indentExcess st.tokens = some k → st.indents.length = k + 1 → p ≤ k →
    TokInv (popDedents p st)
  | 0, st, k, hk, hl, _ => ⟨k, hk, hl⟩
  | p + 1, st, k, hk, hl, hp => by
    have hk1 : 1 ≤ k := le_trans (Nat.succ_le_succ (Nat.zero_le p)) hp
    rw [popDedents]
    apply popDedents_inv p _ (k - 1) ?_ ?_ (by omega)
    · rw [addTokenT_tokens]
      show indentExcess (st.tokens ++ [_]) = some (k - 1)
      rw [indentExcess_append]
      show exStep (indentExcess st.tokens) ⟨.dedent, _, _, _⟩ = some (k - 1)
      rw [hk]
      have : k = (k - 1) + 1 := by omega
      rw [this]
      rfl
    · rw [addTokenT_indents]
      show (st.indents.dropLast).length = (k - 1) + 1
      rw [List.length_dropLast, hl]
      omega

theorem indexOf_lt_of_contains (l : List (List Char)) (a : List Char)
    (h : l.contains a = true) : l.indexOf a < l.length := by
  have hmem : a ∈ l := by simpa using h
  apply List.findIdx_lt_length_of_exists
  exact ⟨a, hmem, by simp⟩

theorem TokInv_addTokenT_fields (base : TokState) (tt : TokType)
    (st₀ : TokState) (ht : st₀.tokens = base.tokens)
    (hi : st₀.indents = base.indents) (h1 : tt ≠ .indent)
    (h2 : tt ≠ .dedent) (h : TokInv base) : TokInv (st₀.addTokenT tt) :=
  TokInv_addTokenT st₀ tt h1 h2 (TokInv_of_fields base st₀ ht hi h)

theorem detectIndent_inv (fuel : Nat) (st st₁ : TokState)
    (h : detectIndent fuel st = .ok st₁) (hinv : TokInv st) : TokInv st₁ := by
  have hfld := readIndent_fields fuel st
  unfold detectIndent at h
  split at h
  rename_i indent st₂ hri
  rw [hri] at hfld
  obtain ⟨hT, hI⟩ := hfld
  dsimp only at h hT hI
  split_ifs at h with hpre heqI hlt
  · obtain rfl := Except.ok.inj h
    exact TokInv_of_fields st _ hT hI hinv
  · obtain rfl := Except.ok.inj h
    obtain ⟨k, hk, hl⟩ := hinv
    refine ⟨k + 1, ?_, ?_⟩
    · show indentExcess ((st₂.addTokenT .indent).tokens) = some (k + 1)
      rw [addTokenT_tokens, hT, indentExcess_append, hk]
      rfl
    · show ((st₂.addTokenT .indent).indents ++ [indent]).length = (k + 1) + 1
      rw [List.length_append, addTokenT_indents, hI, hl]
      rfl
  · obtain rfl := Except.ok.inj h
    obtain ⟨k, hk, hl⟩ := hinv
    apply popDedents_inv _ _ k (hT ▸ hk) (hI ▸ hl)
    have hidx : st₂.indents.indexOf indent < st₂.indents.length := by
      rename_i hmem
      exact indexOf_lt_of_contains _ _ (by simpa using hmem)
    rw [hI, hl] at hidx ⊢
    omega

theorem scanToken_inv (fuel : Nat) (st st₁ : TokState)
    (h : scanToken fuel st = .ok st₁) (hinv : TokInv st) : TokInv st₁ := by
  unfold scanToken at h
  split at h
  · obtain rfl := Except.ok.inj h
    exact hinv
  · rename_i c st₂ hr
    have hadv : st₂ = st.advanceT := readCharT_snd st st₂ c hr
    have hinv₂ : TokInv st₂ := TokInv_of_fields st st₂
      (by rw [hadv]; rfl) (by rw [hadv]; rfl) hinv
    split_ifs at h
    · exact detectIndent_inv fuel _ st₁ h
        (TokInv_addTokenT_fields st .newline st₂ (by rw [hadv]; rfl)
          (by rw [hadv]; rfl) (by decide) (by decide) hinv)
    · obtain rfl := Except.ok.inj h
      exact TokInv_of_fields st _ (by rw [hadv]; rfl) (by rw [hadv]; rfl) hinv
    · dsimp only at h
      obtain rfl := Except.ok.inj h
      refine TokInv_addTokenT_fields st .op _ ?_ ?_ (by decide) (by decide) hinv <;>
        rw [hadv] <;> split <;> rfl
    · obtain rfl := Except.ok.inj h
      exact TokInv_of_fields st _ (by rw [(scanComment_fields _ _).1, hadv]; rfl)
        (by rw [(scanComment_fields _ _).2, hadv]; rfl) hinv
    · dsimp only at h
      obtain rfl := Except.ok.inj h
      exact TokInv_addTokenT_fields st .op _ (by rw [hadv]; rfl)
        (by rw [hadv]; rfl) (by decide) (by decide) hinv
    · dsimp only at h
      obtain rfl := Except.ok.inj h
      exact TokInv_addTokenT_fields st .op st₂ (by rw [hadv]; rfl)
        (by rw [hadv]; rfl) (by decide) (by decide) hinv
    · dsimp only at h
      obtain rfl := Except.ok.inj h
      exact TokInv_of_fields (st₂.addTokenT .op) _ rfl rfl
        (TokInv_addTokenT_fields st .op st₂ (by rw [hadv]; rfl)
          (by rw [hadv]; rfl) (by decide) (by decide) hinv)
    · dsimp only at h
      split_ifs at h with h8
      · obtain rfl := Except.ok.inj h
        exact TokInv_of_fields (st₂.addTokenT .op) _ rfl rfl
          (TokInv_addTokenT_fields st .op st₂ (by rw [hadv]; rfl)
            (by rw [hadv]; rfl) (by decide) (by decide) hinv)
      · obtain rfl := Except.ok.inj h
        exact TokInv_addTokenT_fields st .op st₂ (by rw [hadv]; rfl)
          (by rw [hadv]; rfl) (by decide) (by decide) hinv
    · exact scanString_inv fuel c st₂ st₁ h hinv₂
    · obtain rfl := Except.ok.inj h
      exact scanNumber_inv fuel st₂ hinv₂
    · obtain rfl := Except.ok.inj h
      exact scanIdentifier_inv fuel st₂ hinv₂

theorem scanTokens_inv (fuel : Nat) (st st₁ : TokState)
    (h : scanTokens fuel st = .ok st₁) (hinv : TokInv st) : TokInv st₁ := by
  induction fuel generalizing st with
  | zero =>
    rw [scanTokens] at h
    split_ifs at h
    obtain rfl := Except.ok.inj h
    exact hinv
  | succ n ih =>
    rw [scanTokens] at h
    split_ifs at h with hs
    · obtain rfl := Except.ok.inj h
      exact hinv
    · split at h
      · exact absurd h (by simp)
      · rename_i st₂ heq
        exact ih st₂ h (scanToken_inv n st st₂ heq hinv)

/-- C3 as amended.  For every source the tokenizer accepts, the emitted
INDENT/DEDENT sequence is well nested: scanning the token list left to
right, every DEDENT closes the innermost still-open INDENT and never occurs
with no INDENT open, and `k` INDENT tokens (the levels still open when input
ends) are left without a matching DEDENT, because end of input synthesizes
no trailing DEDENTs; the DEDENT count therefore falls short of the INDENT
count by exactly that `k`. -/
theorem c3_dedents_well_nested (source : List Char) (ts : List Tok)
    (h : tokenize source = .ok ts) :
    ∃ k, indentExcess ts = some k ∧
      countTok .dedent ts + k = countTok .indent ts := by
  unfold tokenize at h
  cases hsc : scanTokens (fuelFor source) (initState source) with
  | error e => rw [hsc] at h; exact absurd h (by simp [Except.map])
  | ok st =>
    rw [hsc] at h
    simp only [Except.map, Except.ok.injEq] at h
    obtain ⟨k, hk, _⟩ := scanTokens_inv _ _ _ hsc ⟨0, rfl, rfl⟩
    refine ⟨k, h ▸ hk, ?_⟩
    have := indentExcess_counts ts 0 k (by
      have : indentExcess ts = some k := h ▸ hk
      simpa [indentExcess] using this)
    omega

/-- C3 counterexample (settling the claim as frozen): the accepted source
`x\n y` ends inside the indented block, and its full emitted token list has
one INDENT and no DEDENT at all — the INDENT is never paired. -/
theorem c3_unmatched_indent_cex :
    tokenize ['x', '\n', ' ', 'y']
      = .ok [⟨.name, ['x'], 0, 0⟩, ⟨.newline, ['\n'], 1, 1⟩,
             ⟨.indent, [' '], 2, 2⟩, ⟨.name, ['y'], 3, 3⟩] ∧
    countTok .indent [⟨.name, ['x'], 0, 0⟩, ⟨.newline, ['\n'], 1, 1⟩,
        ⟨.indent, [' '], 2, 2⟩, ⟨.name, ['y'], 3, 3⟩] = 1 ∧
    countTok .dedent [⟨.name, ['x'], 0, 0⟩, ⟨.newline, ['\n'], 1, 1⟩,
        ⟨.indent, [' '], 2, 2⟩, ⟨.name, ['y'], 3, 3⟩] = 0 :=
  ⟨rfl, rfl, rfl⟩

/-- C3 witness: a source whose dedents do occur; the amended theorem applied
to it. -/
theorem c3_dedents_well_nested_witness :
    ∃ k, indentExcess [⟨.name, ['x'], 0, 0⟩, ⟨.newline, ['\n'], 1, 1⟩,
        ⟨.indent, [' '], 2, 2⟩, ⟨.name, ['y'], 3, 3⟩,
        ⟨.newline, ['\n'], 4, 4⟩, ⟨.dedent, [], 5, 4⟩,
        ⟨.name, ['z'], 5, 5⟩] = some k ∧
      countTok .dedent [⟨.name, ['x'], 0, 0⟩, ⟨.newline, ['\n'], 1, 1⟩,
          ⟨.indent, [' '], 2, 2⟩, ⟨.name, ['y'], 3, 3⟩,
          ⟨.newline, ['\n'], 4, 4⟩, ⟨.dedent, [], 5, 4⟩,
          ⟨.name, ['z'], 5, 5⟩] + k
        = countTok .indent [⟨.name, ['x'], 0, 0⟩, ⟨.newline, ['\n'], 1, 1⟩,
            ⟨.indent, [' '], 2, 2⟩, ⟨.name, ['y'], 3, 3⟩,
            ⟨.newline, ['\n'], 4, 4⟩, ⟨.dedent, [], 5, 4⟩,
            ⟨.name, ['z'], 5, 5⟩] :=
  c3_dedents_well_nested ['x', '\n', ' ', 'y', '\n', 'z'] _ rfl

end Interpreted
